import Mathlib

/-!
Verification development for the ChromaDB export utility
(`scripts/export_chromadb.py`).

The script is a linear ETL pipeline: it reads documents, metadata and
embeddings from a ChromaDB store, converts every record to a canonical
"conversation chunk" shape, and writes the aggregate to a JSON file.
This file gives a shallow embedding of its data model and of the three
operations the specification talks about:

* `convert_to_conversation_chunk` (per-record conversion, including the
  three-tier timestamp normalization);
* `export_collection` (per-partition export with per-record and
  per-partition error isolation, updating the run counters);
* `export_all` (whole-run orchestration producing the export envelope).

Python values carried in ChromaDB metadata are modelled by `PyVal`
(numbers at integer precision, strings, lists, None); a metadata dict is
an association list.  The wall clock (`datetime.now()`) is passed in as
an explicit `DateTime` parameter.  The standard-library pieces the
script calls (`datetime.fromtimestamp`, `datetime.isoformat`,
`datetime.fromisoformat`, `str.replace`) are modelled at UTC and
whole-second granularity; `datetime.fromtimestamp` raises (returns
`Except.error`) exactly when the converted calendar year falls outside
Python's supported range 1..9999.
-/

/-- A Python scalar/sequence value as stored in ChromaDB metadata.
Numbers (int or float timestamps) are modelled at integer precision. -/
inductive PyVal where
  | vnum (n : Int)
  | vstr (s : String)
  | vlist (l : List PyVal)
  | vnone
deriving Repr

/-- A Python dict with string keys, as an (insertion-ordered) association list. -/
abbrev Metadata : Type := List (String × PyVal)

/-- Model of Python `dict.get k` (no default): first value stored under `k`, if any. -/
def metaGet (md : Metadata) (k : String) : Option PyVal :=
  match md with
  | [] => none
  | (k', v) :: rest => if k' = k then some v else metaGet rest k

/-- A calendar date-time at whole-second granularity (the granularity the
timestamp claims need). -/
structure DateTime where
  year : Int
  month : Nat
  day : Nat
  hour : Nat
  minute : Nat
  second : Nat
deriving Repr, DecidableEq

/-- Left-pad the decimal rendering of `n` with zeros to width `w`. -/
def padNum (w : Nat) (n : Nat) : String :=
  let s := toString n
  String.mk (List.replicate (w - s.length) '0') ++ s

/-- Model of `datetime.isoformat` for a whole-second datetime:
`YYYY-MM-DDTHH:MM:SS`. -/
def DateTime.isoformat (dt : DateTime) : String :=
  padNum 4 dt.year.toNat ++ "-" ++ padNum 2 dt.month ++ "-" ++ padNum 2 dt.day ++ "T"
    ++ padNum 2 dt.hour ++ ":" ++ padNum 2 dt.minute ++ ":" ++ padNum 2 dt.second

/-- Field-wise syntactic sanity of a datetime: the ranges a syntactic
ISO-8601 validator checks (year 0001..9999, month 01..12, day 01..31,
time below 24:00:00). -/
def DateTime.SynValid (dt : DateTime) : Prop :=
  1 ≤ dt.year ∧ dt.year ≤ 9999 ∧ 1 ≤ dt.month ∧ dt.month ≤ 12 ∧
    1 ≤ dt.day ∧ dt.day ≤ 31 ∧ dt.hour ≤ 23 ∧ dt.minute ≤ 59 ∧ dt.second ≤ 59

instance (dt : DateTime) : Decidable dt.SynValid := by
  unfold DateTime.SynValid; infer_instance

/-- Executable form of `DateTime.SynValid`: the field validation the
`datetime` constructor performs. -/
def DateTime.inRange (dt : DateTime) : Bool := decide dt.SynValid

/- Epoch-seconds to civil calendar conversion (model of the C library
conversion behind `datetime.fromtimestamp`, at UTC), via the standard
era/day-of-era decomposition of the proleptic Gregorian calendar. -/

/-- Seconds past midnight of the civil day containing epoch second `t`. -/
def secondsOfDay (t : Int) : Nat := (Int.emod t 86400).toNat

/-- Whole civil days between the epoch and epoch second `t` (floor). -/
def daysFromEpoch (t : Int) : Int := Int.ediv t 86400

/-- The 400-year era containing the day, counted from 0000-03-01. -/
def eraOf (t : Int) : Int := Int.ediv (daysFromEpoch t + 719468) 146097

/-- Day-of-era: position of the day inside its 400-year era, 0..146096. -/
def doeOf (t : Int) : Nat := (Int.emod (daysFromEpoch t + 719468) 146097).toNat

/-- Year-of-era, 0..399, recovered from the day-of-era. -/
def yoeOf (doe : Nat) : Nat := (doe - doe / 1460 + doe / 36524 - doe / 146096) / 365

/-- Day-of-year in the March-based year, 0..365. -/
def doyOf (doe : Nat) : Nat := doe - (365 * yoeOf doe + yoeOf doe / 4 - yoeOf doe / 100)

/-- March-based month index, 0..11 (0 = March). -/
def mpOf (doy : Nat) : Nat := (5 * doy + 2) / 153

/-- Civil month, 1..12, from the day-of-year. -/
def monthOf (doy : Nat) : Nat := if mpOf doy < 10 then mpOf doy + 3 else mpOf doy - 9

/-- Civil day of month, 1..31, from the day-of-year. -/
def dayOf (doy : Nat) : Nat := doy - (153 * mpOf doy + 2) / 5 + 1

/-- Epoch seconds to civil calendar date-time (UTC, whole seconds). -/
def civilFromSeconds (t : Int) : DateTime :=
  let doe := doeOf t
  let doy := doyOf doe
  let y : Int := (yoeOf doe : Int) + eraOf t * 400
  { year := if monthOf doy ≤ 2 then y + 1 else y
    month := monthOf doy
    day := dayOf doy
    hour := secondsOfDay t / 3600
    minute := secondsOfDay t % 3600 / 60
    second := secondsOfDay t % 60 }

/-- Model of `datetime.fromtimestamp`: converts an epoch value to a
civil date-time and then, as CPython does, constructs a `datetime`,
whose constructor validates every field (year 1..9999, month, day, time
ranges) and raises on out-of-range values.  For extreme epoch inputs
the converted year leaves 1..9999 and the call raises. -/
def fromtimestamp (t : Int) : Except String DateTime :=
  let dt := civilFromSeconds t
  if dt.inRange then Except.ok dt else Except.error "timestamp out of range"

/- Model of `datetime.fromisoformat` used as a validation probe: a
boolean parser for `YYYY-MM-DD[{T| }HH:MM[:SS[.f{1,6}]][±HH:MM[:SS]]]`
with calendar-valid dates, returning whether the parse succeeds. -/

/-- Numeric value of a list of decimal digit characters. -/
def digitsToNat (cs : List Char) : Nat :=
  cs.foldl (fun a c => a * 10 + (c.toNat - 48)) 0

/-- Gregorian leap-year rule. -/
def isLeapYear (y : Nat) : Bool := y % 4 == 0 && (y % 100 != 0 || y % 400 == 0)

/-- Number of days in month `m` of year `y`. -/
def daysInMonth (y m : Nat) : Nat :=
  if m = 2 then (if isLeapYear y then 29 else 28)
  else if m = 4 ∨ m = 6 ∨ m = 9 ∨ m = 11 then 30 else 31

/-- Calendar validity of a year-month-day triple. -/
def validDate (y m d : Nat) : Bool :=
  decide (1 ≤ m) && decide (m ≤ 12) && decide (1 ≤ d) && decide (d ≤ daysInMonth y m)

/-- Accepts the tail of a UTC-offset, after the sign: `HH:MM` or `HH:MM:SS`. -/
def offsetTailOk (cs : List Char) : Bool :=
  match cs with
  | [h1, h2, ':', m1, m2] =>
      [h1, h2, m1, m2].all Char.isDigit &&
        decide (digitsToNat [h1, h2] ≤ 23) && decide (digitsToNat [m1, m2] ≤ 59)
  | [h1, h2, ':', m1, m2, ':', s1, s2] =>
      [h1, h2, m1, m2, s1, s2].all Char.isDigit &&
        decide (digitsToNat [h1, h2] ≤ 23) && decide (digitsToNat [m1, m2] ≤ 59) &&
        decide (digitsToNat [s1, s2] ≤ 59)
  | _ => false

/-- Accepts what may follow the seconds' fractional point: 1..6 digits
then an optional signed offset. -/
def fracTailOk (cs : List Char) : Bool :=
  let digits := cs.takeWhile Char.isDigit
  let rest := cs.dropWhile Char.isDigit
  decide (1 ≤ digits.length) && decide (digits.length ≤ 6) &&
    (match rest with
     | [] => true
     | '+' :: r => offsetTailOk r
     | '-' :: r => offsetTailOk r
     | _ => false)

/-- Accepts what may follow `HH:MM:SS`: end, a fraction, or a signed offset. -/
def secTailOk (cs : List Char) : Bool :=
  match cs with
  | [] => true
  | '.' :: r => fracTailOk r
  | '+' :: r => offsetTailOk r
  | '-' :: r => offsetTailOk r
  | _ => false

/-- Accepts what may follow `HH:MM`: end, `:SS...`, or a signed offset. -/
def minTailOk (cs : List Char) : Bool :=
  match cs with
  | [] => true
  | ':' :: s1 :: s2 :: r =>
      s1.isDigit && s2.isDigit && decide (digitsToNat [s1, s2] ≤ 59) && secTailOk r
  | '+' :: r => offsetTailOk r
  | '-' :: r => offsetTailOk r
  | _ => false

/-- Model of the `datetime.fromisoformat` validation probe: `true` iff
the string parses as an ISO-8601 date or date-time. -/
def fromisoformatOk (s : String) : Bool :=
  match s.toList with
  | y1 :: y2 :: y3 :: y4 :: '-' :: m1 :: m2 :: '-' :: d1 :: d2 :: rest =>
      [y1, y2, y3, y4, m1, m2, d1, d2].all Char.isDigit &&
        validDate (digitsToNat [y1, y2, y3, y4]) (digitsToNat [m1, m2])
          (digitsToNat [d1, d2]) &&
        (match rest with
         | [] => true
         | sep :: h1 :: h2 :: ':' :: mi1 :: mi2 :: r =>
             (sep == 'T' || sep == ' ') && [h1, h2, mi1, mi2].all Char.isDigit &&
               decide (digitsToNat [h1, h2] ≤ 23) &&
               decide (digitsToNat [mi1, mi2] ≤ 59) && minTailOk r
         | _ => false)
  | _ => false

/-- Expansion of one character under `str.replace('Z', '+00:00')`. -/
def replaceZChar (c : Char) : List Char := if c = 'Z' then "+00:00".toList else [c]

/-- Model of `timestamp.replace('Z', '+00:00')`: every `Z` is expanded
to an explicit UTC offset. -/
def replaceZ (s : String) : String :=
  String.mk ((s.toList.map replaceZChar).foldr List.append [])

/-- A string is a syntactically valid ISO-8601 timestamp in this
development if it is the basic `YYYY-MM-DDTHH:MM:SS` rendering of an
in-range date-time, or is accepted by the ISO-8601 parse probe after
normalizing literal `Z` designators to a `+00:00` offset. -/
def ValidISO8601 (s : String) : Prop :=
  (∃ dt : DateTime, dt.SynValid ∧ dt.isoformat = s) ∨ fromisoformatOk (replaceZ s) = true

/-- The three-tier timestamp normalization of
`convert_to_conversation_chunk` (lines 78-93): a numeric timestamp is
converted from epoch via `fromtimestamp` and rendered; a string
timestamp is kept verbatim when the `fromisoformat` probe (after `Z`
replacement) succeeds and replaced by the wall clock otherwise; anything
else becomes the wall clock.  Only the numeric branch can raise. -/
def convertTimestamp (v : Option PyVal) (now : DateTime) : Except String String :=
  match v with
  | some (PyVal.vnum t) => (fromtimestamp t).map DateTime.isoformat
  | some (PyVal.vstr s) =>
      if fromisoformatOk (replaceZ s) then Except.ok s else Except.ok now.isoformat
  | _ => Except.ok now.isoformat

/-- The seven metadata keys mapped to fixed fields of the chunk's nested
metadata object and therefore excluded from `extended_metadata`
(lines 112-113). -/
def reservedKeys : List String :=
  ["repository", "branch", "files_modified", "tools_used", "outcome", "tags", "difficulty"]

/-- The nested `metadata` object of a canonical output record. -/
structure ChunkMetadata where
  repository : PyVal
  branch : PyVal
  files_modified : PyVal
  tools_used : PyVal
  outcome : PyVal
  tags : PyVal
  difficulty : PyVal
  extended_metadata : Metadata
deriving Repr

/-- A canonical output record ("conversation chunk"). -/
structure ConversationChunk where
  id : String
  session_id : PyVal
  timestamp : String
  type : PyVal
  content : String
  summary : PyVal
  metadata : ChunkMetadata
  embeddings : List PyVal
  related_chunks : PyVal
deriving Repr

/-- Model of `ChromaDBExporter.convert_to_conversation_chunk`
(lines 74-119).  `document` and `embedding` are optional to model the
`document or ""` / `embedding or []` falsy guards; the wall clock is the
explicit `now` parameter.  The result is `Except` because the numeric
timestamp branch can raise. -/
def convert_to_conversation_chunk (doc_id : String) (document : Option String)
    (metadata : Metadata) (embedding : Option (List PyVal)) (now : DateTime) :
    Except String ConversationChunk :=
  (convertTimestamp (metaGet metadata "timestamp") now).map
    (fun ts =>
        { id := doc_id
          session_id := (metaGet metadata "session_id").getD (PyVal.vstr "migrated")
          timestamp := ts
          type := (metaGet metadata "type").getD (PyVal.vstr "discussion")
          content := document.getD ""
          summary := (metaGet metadata "summary").getD (PyVal.vstr "")
          metadata :=
            { repository := (metaGet metadata "repository").getD (PyVal.vstr "migrated")
              branch := (metaGet metadata "branch").getD (PyVal.vstr "main")
              files_modified := (metaGet metadata "files_modified").getD (PyVal.vlist [])
              tools_used := (metaGet metadata "tools_used").getD (PyVal.vlist [])
              outcome := (metaGet metadata "outcome").getD (PyVal.vstr "success")
              tags := (metaGet metadata "tags").getD (PyVal.vlist [])
              difficulty := (metaGet metadata "difficulty").getD (PyVal.vstr "simple")
              extended_metadata :=
                List.filter (fun kv => !(reservedKeys.contains kv.1)) metadata }
          embeddings := embedding.getD []
          related_chunks := (metaGet metadata "related_chunks").getD (PyVal.vlist []) })

/-- The exporter's counter bag, zero-initialized in `__init__` (lines 35-40). -/
structure Stats where
  collections : Nat
  total_documents : Nat
  exported_chunks : Nat
  errors : Nat
deriving Repr, DecidableEq

/-- The zeroed counters set up by `ChromaDBExporter.__init__`. -/
def initStats : Stats :=
  { collections := 0, total_documents := 0, exported_chunks := 0, errors := 0 }

/-- The result of `collection.get(include=[...])` for one partition:
parallel lists of ids, documents, metadatas and embeddings (the
document lists may be shorter than `ids`, and documents may be None). -/
structure Results where
  ids : List String
  documents : List (Option String)
  metadatas : List Metadata
  embeddings : List (List PyVal)
deriving Repr

/-- Positional id fallback (line 139): the stored id when index `i` is in
range, else the synthetic `doc_i`. -/
def idAt (r : Results) (i : Nat) : String := (r.ids[i]?).getD ("doc_" ++ toString i)

/-- Positional document fallback (line 140): the stored document (which
may itself be None) when in range, else the empty string. -/
def documentAt (r : Results) (i : Nat) : Option String := (r.documents[i]?).getD (some "")

/-- Positional metadata fallback (line 141): the stored dict when in
range, else an empty dict. -/
def metadataAt (r : Results) (i : Nat) : Metadata := (r.metadatas[i]?).getD []

/-- Positional embedding fallback (line 142): the stored embedding when
in range, else an empty sequence. -/
def embeddingAt (r : Results) (i : Nat) : List PyVal := (r.embeddings[i]?).getD []

/-- Whether an `Except` computation succeeded (did not raise). -/
def isOkE {ε α : Type} (r : Except ε α) : Bool :=
  match r with
  | Except.ok _ => true
  | Except.error _ => false

/-- Whether record `i` of a fetched partition converts successfully. -/
def recordOk (results : Results) (now : DateTime) (i : Nat) : Bool :=
  isOkE (convert_to_conversation_chunk (idAt results i) (documentAt results i)
    (metadataAt results i) (some (embeddingAt results i)) now)

/-- The per-record body of `export_collection`'s loop (lines 138-151):
a successful conversion appends one complete chunk and bumps
`exported_chunks`; a failed conversion is caught, leaves the output
untouched and bumps `errors`. -/
def processDocument (results : Results) (now : DateTime)
    (acc : List ConversationChunk × Stats) (i : Nat) : List ConversationChunk × Stats :=
  match convert_to_conversation_chunk (idAt results i) (documentAt results i)
      (metadataAt results i) (some (embeddingAt results i)) now with
  | Except.ok chunk =>
      (acc.1 ++ [chunk], { acc.2 with exported_chunks := acc.2.exported_chunks + 1 })
  | Except.error _ => (acc.1, { acc.2 with errors := acc.2.errors + 1 })

/-- Model of `ChromaDBExporter.export_collection` (lines 121-160).  The
partition fetch (`get_collection` + `collection.get`, which can raise)
is passed in as an `Except`; its failure is the outer except-branch:
empty result and one more error.  On success every index below the id
count is processed in order by `processDocument`, and the document count
is added to `total_documents`. -/
def export_collection (fetch : Except String Results) (now : DateTime) (stats : Stats) :
    List ConversationChunk × Stats :=
  match fetch with
  | Except.error _ => ([], { stats with errors := stats.errors + 1 })
  | Except.ok results =>
      let docCount := results.ids.length
      let r := (List.range docCount).foldl (processDocument results now) ([], stats)
      (r.1, { r.2 with total_documents := r.2.total_documents + docCount })

/-- The export summary attached to the envelope
(`get_export_metadata`, lines 188-197). -/
structure ExportMetadata where
  export_timestamp : String
  source : String
  source_path : String
  target_format : String
  version : String
  stats : Stats
deriving Repr, DecidableEq

/-- Model of `ChromaDBExporter.get_export_metadata` (lines 188-197). -/
def get_export_metadata (now : DateTime) (source_path : String) (stats : Stats) :
    ExportMetadata :=
  { export_timestamp := now.isoformat
    source := "ChromaDB"
    source_path := source_path
    target_format := "ConversationChunk"
    version := "1.0.0"
    stats := stats }

/-- The export envelope `{chunks, metadata}` returned by `export_all`. -/
structure Envelope where
  chunks : List ConversationChunk
  metadata : ExportMetadata
deriving Repr

/-- The per-partition body of `export_all`'s loop (lines 175-178):
export the partition from the current counters, extend the chunk
accumulator, and bump the partition counter. -/
def exportAllLoop (now : DateTime) (parts : List (Except String Results))
    (acc : List ConversationChunk × Stats) : List ConversationChunk × Stats :=
  parts.foldl
    (fun acc p =>
      let r := export_collection p now acc.2
      (acc.1 ++ r.1, { r.2 with collections := r.2.collections + 1 }))
    acc

/-- Model of `ChromaDBExporter.export_all` (lines 162-186), after a
successful `connect`.  `parts` is the fetch outcome of each partition
listed by `list_collections`, in order; counters start from the
`__init__` zeros.  An empty partition list short-circuits to an empty
envelope with the pristine counters. -/
def export_all (parts : List (Except String Results)) (source_path : String)
    (now : DateTime) : Envelope :=
  if parts.isEmpty then
    { chunks := [], metadata := get_export_metadata now source_path initStats }
  else
    let r := exportAllLoop now parts ([], initStats)
    { chunks := r.1, metadata := get_export_metadata now source_path r.2 }

/-- The full fixed canonical field set as listed by the table in §3 of
the specification.  Written from the spec's words (not from the code) to
state claim C5, which asserts `extended_metadata` excludes all of these. -/
def specCanonicalFields : List String :=
  ["session_id", "timestamp", "type", "summary", "related_chunks",
   "repository", "branch", "files_modified", "tools_used", "outcome", "tags", "difficulty"]

/-- The keys of the extended metadata of a conversion result (empty when
the conversion raised). -/
def extendedKeysOf (r : Except String ConversationChunk) : List String :=
  match r with
  | Except.ok c => c.metadata.extended_metadata.map Prod.fst
  | Except.error _ => []

/-- Lookup of key `k` in the extended metadata of a conversion result
(no entry when the conversion raised). -/
def extMetaGet (r : Except String ConversationChunk) (k : String) : Option PyVal :=
  match r with
  | Except.ok c => metaGet c.metadata.extended_metadata k
  | Except.error _ => none

/-- A fixed in-range wall-clock instant used for concrete evaluations. -/
def now0 : DateTime := { year := 2023, month := 6, day := 1, hour := 12, minute := 0, second := 0 }

/-! Helper lemmas. -/

theorem fromtimestamp_ok_valid {t : Int} {dt : DateTime}
    (h : fromtimestamp t = Except.ok dt) : dt.SynValid := by
  simp only [fromtimestamp] at h
  split at h
  · cases h
    exact of_decide_eq_true (by assumption)
  · cases h

theorem convertTimestamp_valid (v : Option PyVal) (now : DateTime) (hnow : now.SynValid)
    (hnum : ∀ t : Int, v = some (PyVal.vnum t) → isOkE (fromtimestamp t) = true) :
    ∃ ts, convertTimestamp v now = Except.ok ts ∧ ValidISO8601 ts := by
  cases v with
  | none => exact ⟨now.isoformat, rfl, Or.inl ⟨now, hnow, rfl⟩⟩
  | some pv =>
    cases pv with
    | vnum t =>
        have h1 := hnum t rfl
        cases hft : fromtimestamp t with
        | error e => rw [hft] at h1; simp [isOkE] at h1
        | ok dt =>
            refine ⟨dt.isoformat, ?_, Or.inl ⟨dt, fromtimestamp_ok_valid hft, rfl⟩⟩
            simp [convertTimestamp, hft, Except.map]
    | vstr s =>
        by_cases hp : fromisoformatOk (replaceZ s) = true
        · exact ⟨s, by simp [convertTimestamp, hp], Or.inr hp⟩
        · refine ⟨now.isoformat, ?_, Or.inl ⟨now, hnow, rfl⟩⟩
          simp [convertTimestamp, hp]
    | vlist l => exact ⟨now.isoformat, rfl, Or.inl ⟨now, hnow, rfl⟩⟩
    | vnone => exact ⟨now.isoformat, rfl, Or.inl ⟨now, hnow, rfl⟩⟩

theorem metaGet_filter_reserved (md : Metadata) (k : String) (hk : k ∈ reservedKeys) :
    metaGet (List.filter (fun kv => !(reservedKeys.contains kv.1)) md) k = none := by
  induction md with
  | nil => rfl
  | cons kv rest ih =>
      obtain ⟨a, b⟩ := kv
      by_cases hkv : a ∈ reservedKeys
      · simp only [List.filter_cons]
        rw [if_neg (by simp [hkv])]
        exact ih
      · have hne : a ≠ k := fun he => hkv (he ▸ hk)
        simp only [List.filter_cons]
        rw [if_pos (by simp [hkv])]
        simp only [metaGet, if_neg hne]
        exact ih

theorem metaGet_filter_unreserved (md : Metadata) (k : String) (hk : ¬ k ∈ reservedKeys) :
    metaGet (List.filter (fun kv => !(reservedKeys.contains kv.1)) md) k = metaGet md k := by
  induction md with
  | nil => rfl
  | cons kv rest ih =>
      obtain ⟨a, b⟩ := kv
      by_cases heq : a = k
      · subst heq
        simp only [List.filter_cons]
        rw [if_pos (by simp [hk])]
        simp [metaGet]
      · by_cases hkv : a ∈ reservedKeys
        · simp only [List.filter_cons]
          rw [if_neg (by simp [hkv])]
          rw [ih]
          simp only [metaGet, if_neg heq]
        · simp only [List.filter_cons]
          rw [if_pos (by simp [hkv])]
          simp only [metaGet, if_neg heq]
          exact ih

theorem convert_extended_eq (doc_id : String) (document : Option String) (metadata : Metadata)
    (embedding : Option (List PyVal)) (now : DateTime) (c : ConversationChunk)
    (hconv : convert_to_conversation_chunk doc_id document metadata embedding now
      = Except.ok c) :
    c.metadata.extended_metadata
      = List.filter (fun kv => !(reservedKeys.contains kv.1)) metadata := by
  rw [convert_to_conversation_chunk] at hconv
  cases hts : convertTimestamp (metaGet metadata "timestamp") now with
  | error e => rw [hts] at hconv; cases hconv
  | ok ts =>
      rw [hts] at hconv
      simp only [Except.map] at hconv
      injection hconv with h2
      rw [← h2]

/-! Claim theorems. -/

/-- C1 counterexample: with a numeric metadata timestamp of 253402300800
(one second past year 9999), the timestamp normalization inside
`convert_to_conversation_chunk` raises rather than producing an
ISO-8601 string, so the conversion yields no record.  The claim that the
three-tier fallback never raises, even for extreme numeric values, is
therefore false. -/
theorem claim_C1_cex :
    convert_to_conversation_chunk "d" none [("timestamp", PyVal.vnum 253402300800)] none now0
      = Except.error "timestamp out of range" := rfl

/-- C1 (amended): for every input to `convert_to_conversation_chunk`
whose metadata timestamp, when numeric, converts to a calendar date-time
inside the validated ranges (year 1..9999), and for every absent, string
or other-typed timestamp, the three-tier normalization completes without
raising and the resulting timestamp field is a syntactically valid
ISO-8601 string.  (Only the numeric branch can raise, and only on such
out-of-range epoch values.) -/
theorem claim_C1_amended (doc_id : String) (document : Option String) (metadata : Metadata)
    (embedding : Option (List PyVal)) (now : DateTime) (hnow : now.SynValid)
    (hnum : ∀ t : Int, metaGet metadata "timestamp" = some (PyVal.vnum t) →
      isOkE (fromtimestamp t) = true) :
    ∃ c, convert_to_conversation_chunk doc_id document metadata embedding now = Except.ok c
      ∧ ValidISO8601 c.timestamp := by
  obtain ⟨ts, h1, h2⟩ := convertTimestamp_valid (metaGet metadata "timestamp") now hnow hnum
  cases hconv : convert_to_conversation_chunk doc_id document metadata embedding now with
  | error e =>
      rw [convert_to_conversation_chunk, h1] at hconv
      cases hconv
  | ok c =>
      refine ⟨c, rfl, ?_⟩
      rw [convert_to_conversation_chunk, h1] at hconv
      simp only [Except.map] at hconv
      injection hconv with hc2
      rw [← hc2]
      exact h2

/-- Witness for C1 (amended): a record with an unparseable string
timestamp converts successfully and its timestamp is valid ISO-8601. -/
theorem claim_C1_amended_witness :
    ∃ c, convert_to_conversation_chunk "d" none
        [("timestamp", PyVal.vstr "definitely not a date")] none now0 = Except.ok c
      ∧ ValidISO8601 c.timestamp :=
  claim_C1_amended "d" none [("timestamp", PyVal.vstr "definitely not a date")] none now0
    (by decide)
    (by
      intro t h
      rw [show metaGet [("timestamp", PyVal.vstr "definitely not a date")] "timestamp"
            = some (PyVal.vstr "definitely not a date") from rfl] at h
      exact PyVal.noConfusion (Option.some.inj h))

/-- C3: for a record whose metadata timestamp is the numeric epoch value
`t`, the timestamp produced by `convert_to_conversation_chunk` is
exactly the ISO-8601 rendering of the epoch-to-calendar conversion of
`t` (`fromtimestamp` followed by `isoformat`); in particular the
conversion raises precisely when the calendar conversion of `t` does. -/
theorem claim_C3 (doc_id : String) (document : Option String) (metadata : Metadata)
    (embedding : Option (List PyVal)) (now : DateTime) (t : Int)
    (h : metaGet metadata "timestamp" = some (PyVal.vnum t)) :
    (convert_to_conversation_chunk doc_id document metadata embedding now).map
        (fun c => c.timestamp)
      = (fromtimestamp t).map DateTime.isoformat := by
  simp only [convert_to_conversation_chunk, convertTimestamp, h]
  cases fromtimestamp t with
  | error e => rfl
  | ok dt => rfl

/-- Witness for C3 at the epoch value 1700000000. -/
theorem claim_C3_witness :
    (convert_to_conversation_chunk "d" none [("timestamp", PyVal.vnum 1700000000)] none
        now0).map (fun c => c.timestamp)
      = (fromtimestamp 1700000000).map DateTime.isoformat :=
  claim_C3 "d" none [("timestamp", PyVal.vnum 1700000000)] none now0 1700000000 rfl

/-- C4: for a record whose metadata timestamp is a string `s`, the
output timestamp is `s` itself, verbatim, when `s` parses as ISO-8601
under the `fromisoformat` probe after normalizing literal `Z` to the
`+00:00` offset; otherwise it is the current wall clock rendered as
ISO-8601.  The parse is only a validation probe: a parseable string is
never reformatted. -/
theorem claim_C4 (doc_id : String) (document : Option String) (metadata : Metadata)
    (embedding : Option (List PyVal)) (now : DateTime) (s : String)
    (h : metaGet metadata "timestamp" = some (PyVal.vstr s)) :
    (convert_to_conversation_chunk doc_id document metadata embedding now).map
        (fun c => c.timestamp)
      = Except.ok (if fromisoformatOk (replaceZ s) then s else now.isoformat) := by
  simp only [convert_to_conversation_chunk, convertTimestamp, h]
  by_cases hp : fromisoformatOk (replaceZ s) = true
  · simp [hp, Except.map]
  · simp [hp, Except.map]

/-- Witness for C4: a trailing-`Z` ISO string is kept verbatim. -/
theorem claim_C4_witness :
    (convert_to_conversation_chunk "d" none
        [("timestamp", PyVal.vstr "2023-06-01T12:00:00Z")] none now0).map
        (fun c => c.timestamp)
      = Except.ok "2023-06-01T12:00:00Z" := by
  have hp : fromisoformatOk (replaceZ "2023-06-01T12:00:00Z") = true := by decide
  rw [claim_C4 "d" none [("timestamp", PyVal.vstr "2023-06-01T12:00:00Z")] none now0
      "2023-06-01T12:00:00Z" rfl, if_pos hp]

/-- C5 counterexample: the source key `session_id` belongs to the fixed
canonical field set of the §3 table, yet it shows up among the extended
metadata keys of the converted record: `extended_metadata` excludes only
the seven reserved nested-metadata keys, not `session_id`, `timestamp`,
`type`, `summary` or `related_chunks`. -/
theorem claim_C5_cex :
    "session_id" ∈ extendedKeysOf (convert_to_conversation_chunk "d" none
        [("session_id", PyVal.vstr "s1")] none now0)
      ∧ "session_id" ∈ specCanonicalFields := by decide

/-- C5 (amended): for every source metadata mapping, the
`extended_metadata` keys of a successfully converted record are exactly
the source metadata keys not among the SEVEN reserved keys (repository,
branch, files_modified, tools_used, outcome, tags, difficulty); keys
such as `session_id`, `timestamp`, `type`, `summary`, `related_chunks`
are retained even though they also feed fixed canonical fields. -/
theorem claim_C5_amended (doc_id : String) (document : Option String) (metadata : Metadata)
    (embedding : Option (List PyVal)) (now : DateTime)
    (hok : isOkE (convert_to_conversation_chunk doc_id document metadata embedding now) = true)
    (k : String) :
    k ∈ extendedKeysOf (convert_to_conversation_chunk doc_id document metadata embedding now)
      ↔ (k ∈ List.map Prod.fst metadata ∧ ¬ k ∈ reservedKeys) := by
  cases hconv : convert_to_conversation_chunk doc_id document metadata embedding now with
  | error e => rw [hconv] at hok; simp [isOkE] at hok
  | ok c =>
      have hext := convert_extended_eq doc_id document metadata embedding now c hconv
      simp only [extendedKeysOf, hext]
      rw [List.mem_map]
      constructor
      · rintro ⟨⟨a, b⟩, hmem, rfl⟩
        rw [List.mem_filter] at hmem
        refine ⟨List.mem_map.mpr ⟨⟨a, b⟩, hmem.1, rfl⟩, ?_⟩
        have h2 := hmem.2
        simp at h2
        exact h2
      · rintro ⟨hmm, hres⟩
        obtain ⟨⟨a, b⟩, hmem, rfl⟩ := List.mem_map.mp hmm
        exact ⟨⟨a, b⟩, List.mem_filter.mpr ⟨hmem, by simp [hres]⟩, rfl⟩

/-- Witness for C5 (amended) on a mapping holding one custom key and one
reserved key. -/
theorem claim_C5_amended_witness :
    "foo" ∈ extendedKeysOf (convert_to_conversation_chunk "d" none
        [("foo", PyVal.vnum 1), ("tags", PyVal.vnone)] none now0)
      ↔ ("foo" ∈ List.map Prod.fst
            ([("foo", PyVal.vnum 1), ("tags", PyVal.vnone)] : Metadata)
          ∧ ¬ "foo" ∈ reservedKeys) :=
  claim_C5_amended "d" none [("foo", PyVal.vnum 1), ("tags", PyVal.vnone)] none now0 rfl "foo"

/-- C6: the extended metadata of a successfully converted record holds
no entry for any of the seven reserved keys, and for every non-reserved
key its lookup agrees with the source metadata lookup (so every other
key present in the source is present with its source value). -/
theorem claim_C6 (doc_id : String) (document : Option String) (metadata : Metadata)
    (embedding : Option (List PyVal)) (now : DateTime)
    (hok : isOkE (convert_to_conversation_chunk doc_id document metadata embedding now) = true)
    (k : String) :
    (k ∈ reservedKeys →
      ¬ k ∈ extendedKeysOf (convert_to_conversation_chunk doc_id document metadata embedding now))
    ∧ (¬ k ∈ reservedKeys →
      extMetaGet (convert_to_conversation_chunk doc_id document metadata embedding now) k
        = metaGet metadata k) := by
  cases hconv : convert_to_conversation_chunk doc_id document metadata embedding now with
  | error e => rw [hconv] at hok; simp [isOkE] at hok
  | ok c =>
      have hext := convert_extended_eq doc_id document metadata embedding now c hconv
      constructor
      · intro hk hmem
        simp only [extendedKeysOf, hext] at hmem
        obtain ⟨⟨a, b⟩, hmem2, rfl⟩ := List.mem_map.mp hmem
        rw [List.mem_filter] at hmem2
        have h2 := hmem2.2
        simp at h2
        exact h2 hk
      · intro hk
        simp only [extMetaGet, hext]
        exact metaGet_filter_unreserved metadata k hk

/-- Witness for C6 on a mapping holding one reserved and one custom key,
probed at the custom key. -/
theorem claim_C6_witness :
    ("custom" ∈ reservedKeys →
      ¬ "custom" ∈ extendedKeysOf (convert_to_conversation_chunk "d" none
        [("repository", PyVal.vstr "r"), ("custom", PyVal.vnum 7)] none now0))
    ∧ (¬ "custom" ∈ reservedKeys →
      extMetaGet (convert_to_conversation_chunk "d" none
        [("repository", PyVal.vstr "r"), ("custom", PyVal.vnum 7)] none now0) "custom"
        = metaGet [("repository", PyVal.vstr "r"), ("custom", PyVal.vnum 7)] "custom") :=
  claim_C6 "d" none [("repository", PyVal.vstr "r"), ("custom", PyVal.vnum 7)] none now0
    rfl "custom"

theorem processDocument_ok (results : Results) (now : DateTime)
    (acc : List ConversationChunk × Stats) (i : Nat) (chunk : ConversationChunk)
    (h : convert_to_conversation_chunk (idAt results i) (documentAt results i)
        (metadataAt results i) (some (embeddingAt results i)) now = Except.ok chunk) :
    processDocument results now acc i
      = (acc.1 ++ [chunk], { acc.2 with exported_chunks := acc.2.exported_chunks + 1 }) := by
  unfold processDocument
  rw [h]

theorem processDocument_err (results : Results) (now : DateTime)
    (acc : List ConversationChunk × Stats) (i : Nat) (e : String)
    (h : convert_to_conversation_chunk (idAt results i) (documentAt results i)
        (metadataAt results i) (some (embeddingAt results i)) now = Except.error e) :
    processDocument results now acc i = (acc.1, { acc.2 with errors := acc.2.errors + 1 }) := by
  unfold processDocument
  rw [h]

theorem processDocument_foldl (results : Results) (now : DateTime) (l : List Nat)
    (cs : List ConversationChunk) (st : Stats) :
    (l.foldl (processDocument results now) (cs, st)).1.length
        = cs.length + l.countP (fun i => recordOk results now i)
    ∧ (l.foldl (processDocument results now) (cs, st)).2.exported_chunks
        = st.exported_chunks + l.countP (fun i => recordOk results now i)
    ∧ (l.foldl (processDocument results now) (cs, st)).2.errors
        = st.errors + l.countP (fun i => !(recordOk results now i))
    ∧ (l.foldl (processDocument results now) (cs, st)).2.total_documents = st.total_documents
    ∧ (l.foldl (processDocument results now) (cs, st)).2.collections = st.collections := by
  induction l generalizing cs st with
  | nil => simp
  | cons i l ih =>
      simp only [List.foldl_cons, List.countP_cons]
      cases hconv : convert_to_conversation_chunk (idAt results i) (documentAt results i)
          (metadataAt results i) (some (embeddingAt results i)) now with
      | ok chunk =>
          have hok : recordOk results now i = true := by
            simp [recordOk, hconv, isOkE]
          rw [processDocument_ok results now (cs, st) i chunk hconv]
          have := ih (cs ++ [chunk]) { st with exported_chunks := st.exported_chunks + 1 }
          simp only [this.1, this.2.1, this.2.2.1, this.2.2.2.1, this.2.2.2.2, hok,
            List.length_append]
          try simp
          try omega
      | error e =>
          have hok : recordOk results now i = false := by
            simp [recordOk, hconv, isOkE]
          rw [processDocument_err results now (cs, st) i e hconv]
          have := ih cs { st with errors := st.errors + 1 }
          simp only [this.1, this.2.1, this.2.2.1, this.2.2.2.1, this.2.2.2.2, hok]
          try simp
          try omega

/-- C2: every record processed by the per-record loop of
`export_collection` has exactly one of two outcomes: either one complete
canonical record is appended to the output (and `exported_chunks` is
bumped), or the output is left untouched and the error counter is
bumped.  No other shape of step exists, so no partial or corrupt record
can ever enter the output collection, and the two outcomes are mutually
exclusive. -/
theorem claim_C2 (results : Results) (now : DateTime)
    (acc : List ConversationChunk × Stats) (i : Nat) :
    ((∃ chunk, processDocument results now acc i
        = (acc.1 ++ [chunk], { acc.2 with exported_chunks := acc.2.exported_chunks + 1 }))
      ∨ processDocument results now acc i
        = (acc.1, { acc.2 with errors := acc.2.errors + 1 }))
    ∧ ¬ ((∃ chunk, processDocument results now acc i
        = (acc.1 ++ [chunk], { acc.2 with exported_chunks := acc.2.exported_chunks + 1 }))
      ∧ processDocument results now acc i
        = (acc.1, { acc.2 with errors := acc.2.errors + 1 })) := by
  constructor
  · cases hconv : convert_to_conversation_chunk (idAt results i) (documentAt results i)
        (metadataAt results i) (some (embeddingAt results i)) now with
    | ok chunk => exact Or.inl ⟨chunk, processDocument_ok results now acc i chunk hconv⟩
    | error e => exact Or.inr (processDocument_err results now acc i e hconv)
  · rintro ⟨⟨chunk, h1⟩, h2⟩
    rw [h1] at h2
    have h3 := congrArg (fun p => p.2.errors) h2
    simp at h3

/-- C8: when opening or enumerating a partition raises, the
partition-level handler of `export_collection` returns an empty chunk
sequence and increments the error counter by exactly one; the function
itself returns normally (it is total: the exception is absorbed). -/
theorem claim_C8 (e : String) (now : DateTime) (stats : Stats) :
    export_collection (Except.error e) now stats
      = ([], { stats with errors := stats.errors + 1 }) := rfl

theorem export_collection_ok (results : Results) (now : DateTime) (stats : Stats) :
    (export_collection (Except.ok results) now stats).1
        = ((List.range results.ids.length).foldl (processDocument results now) ([], stats)).1
    ∧ (export_collection (Except.ok results) now stats).2.errors
        = ((List.range results.ids.length).foldl
            (processDocument results now) ([], stats)).2.errors
    ∧ (export_collection (Except.ok results) now stats).2.exported_chunks
        = ((List.range results.ids.length).foldl
            (processDocument results now) ([], stats)).2.exported_chunks
    ∧ (export_collection (Except.ok results) now stats).2.collections
        = ((List.range results.ids.length).foldl
            (processDocument results now) ([], stats)).2.collections
    ∧ (export_collection (Except.ok results) now stats).2.total_documents
        = ((List.range results.ids.length).foldl
            (processDocument results now) ([], stats)).2.total_documents
          + results.ids.length :=
  ⟨rfl, rfl, rfl, rfl, rfl⟩

/-- C7: for a partition of N fetched records in which exactly one record
fails conversion and all others succeed, `export_collection` returns
N-1 chunks and increments the error counter by exactly one.  No
exception escapes: the function is total, every per-record failure being
absorbed by `processDocument`. -/
theorem claim_C7 (results : Results) (now : DateTime) (stats : Stats)
    (h : (List.range results.ids.length).countP
        (fun i => !(recordOk results now i)) = 1) :
    (export_collection (Except.ok results) now stats).1.length = results.ids.length - 1
    ∧ (export_collection (Except.ok results) now stats).2.errors = stats.errors + 1 := by
  have hf := processDocument_foldl results now (List.range results.ids.length) [] stats
  have hsplit : (List.range results.ids.length).length
      = (List.range results.ids.length).countP (fun i => recordOk results now i)
        + (List.range results.ids.length).countP (fun i => !(recordOk results now i)) := by
    have := List.length_eq_countP_add_countP (l := List.range results.ids.length)
      (fun i => recordOk results now i)
    simpa using this
  rw [List.length_range] at hsplit
  constructor
  · rw [(export_collection_ok results now stats).1, hf.1, List.length_nil]
    omega
  · rw [(export_collection_ok results now stats).2.1, hf.2.2.1]
    omega

/-- A concrete two-record partition whose first record has an
out-of-range numeric timestamp (its conversion raises) and whose second
record converts cleanly. -/
def wres : Results :=
  { ids := ["a", "b"]
    documents := []
    metadatas := [[("timestamp", PyVal.vnum 253402300800)], []]
    embeddings := [] }

/-- Witness for C7 on the two-record partition with exactly one failing
record: one chunk and one new error. -/
theorem claim_C7_witness :
    (export_collection (Except.ok wres) now0 initStats).1.length = wres.ids.length - 1
    ∧ (export_collection (Except.ok wres) now0 initStats).2.errors = initStats.errors + 1 :=
  claim_C7 wres now0 initStats (by decide)

theorem export_collection_exported_delta (fetch : Except String Results) (now : DateTime)
    (st : Stats) :
    (export_collection fetch now st).1.length + st.exported_chunks
      = (export_collection fetch now st).2.exported_chunks := by
  cases fetch with
  | error e => simp [export_collection]
  | ok results =>
      have hf := processDocument_foldl results now (List.range results.ids.length) [] st
      have he := export_collection_ok results now st
      rw [he.1, he.2.2.1, hf.1, hf.2.1, List.length_nil]
      omega

theorem exportAllLoop_exported_delta (now : DateTime) (parts : List (Except String Results))
    (acc : List ConversationChunk × Stats) :
    (exportAllLoop now parts acc).1.length + acc.2.exported_chunks
      = acc.1.length + (exportAllLoop now parts acc).2.exported_chunks := by
  induction parts generalizing acc with
  | nil => simp [exportAllLoop]
  | cons p ps ih =>
      have hstep := export_collection_exported_delta p now acc.2
      have hrec := ih (acc.1 ++ (export_collection p now acc.2).1,
        { (export_collection p now acc.2).2 with
            collections := (export_collection p now acc.2).2.collections + 1 })
      simp only [exportAllLoop, List.foldl_cons] at *
      simp only [List.length_append] at hrec
      omega

/-- C10: after every completed run of `export_all`, whatever the pattern
of per-record or per-partition failures across the partitions, the
`exported_chunks` counter carried in the export summary equals the
length of the chunk sequence of the returned envelope. -/
theorem claim_C10 (parts : List (Except String Results)) (source_path : String)
    (now : DateTime) :
    (export_all parts source_path now).metadata.stats.exported_chunks
      = (export_all parts source_path now).chunks.length := by
  by_cases hp : parts.isEmpty
  · simp [export_all, hp, get_export_metadata, initStats]
  · have hinv := exportAllLoop_exported_delta now parts ([], initStats)
    rw [export_all, if_neg hp]
    dsimp only [initStats, get_export_metadata] at hinv ⊢
    simp only [List.length_nil] at hinv
    omega
